import Mathlib

/-!
Verification of the settlement computation engine of the reportmaker
repository (src/app.py, with the reconciliation validator of
src/app_old1.py) against its natural-language specification.

The embedding is shallow: pandas data frames become lists of typed rows,
Python numbers become exact rationals, and code that can raise becomes
Option / Except valued functions.  Every definition is transcribed from
the source; the one definition transcribed from the specification text
instead is marked `Modelled from the spec` in its doc comment.
-/

namespace ReportMaker

/-! ## Cell values and the numeric normalizer

Embeds `clean_numeric_value` (src/app.py lines 22-31).  A spreadsheet
cell is either null/NaN (`pd.isna` is true), a string, a finite number,
or some other object on which `float(...)` raises `TypeError`.  Python
`float` on a string strips surrounding whitespace and parses an optional
sign, a decimal mantissa and an optional exponent; that parser is
embedded below over the code points of the string.  (The special forms
`inf`/`nan`, digit-group underscores and non-ASCII decimal digits
accepted by CPython are outside every value exercised here and are
modelled as parse failures.)
-/

inductive CellValue where
  | null
  | str (s : List Char)
  | num (q : ℚ)
  | obj
deriving DecidableEq

/-- Whitespace stripped by Python float parsing. -/
def isWsChar (c : Char) : Bool :=
  c = ' ' || c = '\t' || c = '\n' || c = '\r' || c = '\x0b' || c = '\x0c'

/-- Remove leading and trailing whitespace. -/
def stripWs (cs : List Char) : List Char :=
  ((cs.dropWhile isWsChar).reverse.dropWhile isWsChar).reverse

/-- Numeric value of a decimal digit character. -/
def digitVal (c : Char) : ℕ := c.toNat - 48

/-- Value of a block of decimal digit characters. -/
def digitsToNat (ds : List Char) : ℕ :=
  ds.foldl (fun a c => 10 * a + digitVal c) 0

/-- Parse the digits of an exponent (no sign). -/
def parseExpDigits (cs : List Char) : Option ℤ :=
  if cs.isEmpty then none
  else if cs.all Char.isDigit then some (digitsToNat cs : ℤ)
  else none

/-- Parse an optionally signed exponent, the part after `e`/`E`. -/
def parseExp : List Char → Option ℤ
  | '+' :: rest => parseExpDigits rest
  | '-' :: rest => (parseExpDigits rest).map Neg.neg
  | rest => parseExpDigits rest

/-- Parse an unsigned mantissa with optional fraction and exponent,
returning the mantissa digits as a natural number, the number of digits
after the decimal point, and the exponent. -/
def parseMantExp (cs : List Char) : Option (ℕ × ℕ × ℤ) :=
  let ip := cs.takeWhile Char.isDigit
  let r1 := cs.dropWhile Char.isDigit
  match r1 with
  | [] => if ip.isEmpty then none else some (digitsToNat ip, 0, 0)
  | '.' :: r2 =>
    let fp := r2.takeWhile Char.isDigit
    let r3 := r2.dropWhile Char.isDigit
    if ip.isEmpty && fp.isEmpty then none
    else
      match r3 with
      | [] => some (digitsToNat (ip ++ fp), fp.length, 0)
      | c :: r4 =>
        if c = 'e' || c = 'E' then
          (parseExp r4).map (fun e => (digitsToNat (ip ++ fp), fp.length, e))
        else none
  | c :: r2 =>
    if c = 'e' || c = 'E' then
      if ip.isEmpty then none
      else (parseExp r2).map (fun e => (digitsToNat ip, 0, e))
    else none

/-- Rational value of a parsed mantissa/fraction-length/exponent triple. -/
def parsedValue (m : ℕ) (k : ℕ) (e : ℤ) : ℚ :=
  (m : ℚ) / (10 : ℚ) ^ k * (10 : ℚ) ^ e

/-- Python `float(...)` applied to a string: strip whitespace, optional
sign, decimal mantissa with optional exponent; `none` models the
`ValueError` raised on any other input. -/
def parseFloat? (cs : List Char) : Option ℚ :=
  match stripWs cs with
  | '+' :: rest => (parseMantExp rest).map (fun t => parsedValue t.1 t.2.1 t.2.2)
  | '-' :: rest => (parseMantExp rest).map (fun t => -parsedValue t.1 t.2.1 t.2.2)
  | rest => (parseMantExp rest).map (fun t => parsedValue t.1 t.2.1 t.2.2)

/-- Embeds `clean_numeric_value` (src/app.py lines 22-31): null/NaN maps
to 0, strings have every comma removed before `float(...)`, and any
`ValueError`/`TypeError` yields 0. -/
def clean_numeric_value : CellValue → ℚ
  | .null => 0
  | .str s =>
    match parseFloat? (s.filter (fun c => c != ',')) with
    | some q => q
    | none => 0
  | .num q => q
  | .obj => 0

/-- Convenience wrapper applying the normalizer to a string literal. -/
def cleanStr (s : String) : ℚ := clean_numeric_value (.str s.data)

/-- C5.  The numeric normalizer is a total function (so it never raises,
and a cell on which Python float raises TypeError yields 0), null/NaN
and the empty string map to 0, commas and surrounding whitespace are
stripped before parsing, a remaining parse failure maps to 0, and the
five contract examples hold. -/
theorem clean_numeric_value_total_and_examples :
    cleanStr "1,234" = 1234 ∧ cleanStr "" = 0 ∧ cleanStr "abc" = 0 ∧
      clean_numeric_value .null = 0 ∧ clean_numeric_value (.num 42) = 42 ∧
      clean_numeric_value .obj = 0 ∧ cleanStr " 1,234 " = 1234 := by
  refine ⟨?_, rfl, rfl, rfl, rfl, rfl, ?_⟩
  · have h : cleanStr "1,234" = parsedValue 1234 0 0 := rfl
    rw [h, parsedValue]; norm_num
  · have h : cleanStr " 1,234 " = parsedValue 1234 0 0 := rfl
    rw [h, parsedValue]; norm_num

/-- C10.  The normalizer removes every comma of the string, wherever it
occurs, before parsing: removing commas is idempotent over the whole
normalizer, and the malformed string 1,2,3 parses to 123 instead of
falling back to the parse-failure default 0. -/
theorem comma_removal_any_position :
    cleanStr "1,2,3" = 123 ∧
      ∀ s : List Char, clean_numeric_value (.str s) =
        clean_numeric_value (.str (s.filter (fun c => c != ','))) := by
  constructor
  · have h : cleanStr "1,2,3" = parsedValue 123 0 0 := rfl
    rw [h, parsedValue]; norm_num
  · intro s
    simp [clean_numeric_value, List.filter_filter]

/-! ## Lexicographic comparison

pandas sorts string keys by Python string comparison, which is
lexicographic on code points, and sorts on several columns
lexicographically with a stable algorithm (`numpy.lexsort`).  The
comparators below realise that order: `lexLt lt` is the strict
lexicographic lift of a strict component order `lt` to lists, and every
sort key used by `process_data` is rendered as a `List (List ℕ)` (code
points of a string, or a one-element list holding a category rank). -/

def lexLt {α : Type} [DecidableEq α] (lt : α → α → Bool) : List α → List α → Bool
  | [], [] => false
  | [], _ :: _ => true
  | _ :: _, [] => false
  | a :: as, b :: bs => lt a b || (decide (a = b) && lexLt lt as bs)

theorem lexLt_trans {α : Type} [DecidableEq α] {lt : α → α → Bool}
    (hTrans : ∀ a b c, lt a b = true → lt b c = true → lt a c = true) :
    ∀ l₁ l₂ l₃, lexLt lt l₁ l₂ = true → lexLt lt l₂ l₃ = true →
      lexLt lt l₁ l₃ = true := by
  intro l₁
  induction l₁ with
  | nil =>
    intro l₂ l₃ h₁ h₂
    cases l₂ with
    | nil => simp [lexLt] at h₁
    | cons b bs =>
      cases l₃ with
      | nil => simp [lexLt] at h₂
      | cons c cs => rfl
  | cons a as ih =>
    intro l₂ l₃ h₁ h₂
    cases l₂ with
    | nil => simp [lexLt] at h₁
    | cons b bs =>
      cases l₃ with
      | nil => simp [lexLt] at h₂
      | cons c cs =>
        simp only [lexLt, Bool.or_eq_true, Bool.and_eq_true, decide_eq_true_eq] at h₁ h₂ ⊢
        rcases h₁ with h₁ | ⟨hab, h₁⟩
        · rcases h₂ with h₂ | ⟨hbc, h₂⟩
          · exact Or.inl (hTrans a b c h₁ h₂)
          · exact Or.inl (hbc ▸ h₁)
        · rcases h₂ with h₂ | ⟨hbc, h₂⟩
          · exact Or.inl (hab ▸ h₂)
          · exact Or.inr ⟨hab.trans hbc, ih bs cs h₁ h₂⟩

theorem lexLt_conn {α : Type} [DecidableEq α] {lt : α → α → Bool}
    (hConn : ∀ a b, lt a b = false → lt b a = false → a = b) :
    ∀ l₁ l₂, lexLt lt l₁ l₂ = false → lexLt lt l₂ l₁ = false → l₁ = l₂ := by
  intro l₁
  induction l₁ with
  | nil =>
    intro l₂ h₁ _
    cases l₂ with
    | nil => rfl
    | cons b bs => simp [lexLt] at h₁
  | cons a as ih =>
    intro l₂ h₁ h₂
    cases l₂ with
    | nil => simp [lexLt] at h₂
    | cons b bs =>
      simp only [lexLt, Bool.or_eq_false_iff, Bool.and_eq_false_iff,
        decide_eq_false_iff_not] at h₁ h₂
      have hab : a = b := hConn a b h₁.1 h₂.1
      rcases h₁.2 with h | h
      · exact absurd hab h
      · rcases h₂.2 with h2 | h2
        · exact absurd hab.symm h2
        · exact hab ▸ congrArg (a :: ·) (ih bs h h2)

/-- Strict comparison of natural numbers as a Bool. -/
def natLt (a b : ℕ) : Bool := decide (a < b)

/-- Strict lexicographic comparison of sort keys rendered as lists of
code-point lists. -/
def keysLt : List (List ℕ) → List (List ℕ) → Bool := lexLt (lexLt natLt)

theorem keysLt_trans : ∀ k₁ k₂ k₃, keysLt k₁ k₂ = true → keysLt k₂ k₃ = true →
    keysLt k₁ k₃ = true :=
  lexLt_trans (lexLt_trans (by intro a b c; simp [natLt]; omega))

theorem keysLt_conn : ∀ k₁ k₂, keysLt k₁ k₂ = false → keysLt k₂ k₁ = false → k₁ = k₂ :=
  lexLt_conn (lexLt_conn (by intro a b; simp [natLt]; omega))

/-- Non-strict sort order induced by a key function: strictly smaller
key, or equal key.  This is the comparator of a stable multi-column
`sort_values`. -/
def keyLe {β : Type} (key : β → List (List ℕ)) (x y : β) : Bool :=
  keysLt (key x) (key y) || decide (key x = key y)

theorem keyLe_trans {β : Type} (key : β → List (List ℕ)) :
    ∀ x y z, keyLe key x y = true → keyLe key y z = true → keyLe key x z = true := by
  intro x y z h₁ h₂
  simp only [keyLe, Bool.or_eq_true, decide_eq_true_eq] at h₁ h₂ ⊢
  rcases h₁ with h₁ | h₁
  · rcases h₂ with h₂ | h₂
    · exact Or.inl (keysLt_trans _ _ _ h₁ h₂)
    · exact Or.inl (h₂ ▸ h₁)
  · rcases h₂ with h₂ | h₂
    · exact Or.inl (h₁ ▸ h₂)
    · exact Or.inr (h₁.trans h₂)

theorem keyLe_total {β : Type} (key : β → List (List ℕ)) :
    ∀ x y, (keyLe key x y || keyLe key y x) = true := by
  intro x y
  by_cases h₁ : keysLt (key x) (key y) = true
  · simp [keyLe, h₁]
  · by_cases h₂ : keysLt (key y) (key x) = true
    · simp [keyLe, h₂]
    · have := keysLt_conn (key x) (key y)
        (Bool.of_not_eq_true h₁) (Bool.of_not_eq_true h₂)
      simp [keyLe, this]

theorem keyLe_of_key_eq {β : Type} (key : β → List (List ℕ)) {x y : β}
    (h : key x = key y) : keyLe key x y = true := by
  simp [keyLe, h]

/-! ## Revenue rows and per-artist aggregation

Embeds the aggregation half of `process_data` (src/app.py lines
33-62).  Field names map to the source columns: artist = 앨범아티스트,
album = 앨범명, major = 대분류, minor = 중분류, service = 서비스명,
revenue = 매출 순수익 (already passed through `clean_numeric_value` by
`generate_reports` before `process_data` runs). -/

structure RevenueRow where
  artist : String
  album : String
  major : String
  minor : String
  service : String
  revenue : ℚ
deriving DecidableEq

/-- Embeds `revenue_data[revenue_data[앨범아티스트] == artist]`. -/
def filterArtist (rows : List RevenueRow) (artist : String) : List RevenueRow :=
  rows.filter (fun r => r.artist == artist)

/-- Grouping key of the service-level summary: the four grouped columns. -/
structure SKey where
  album : String
  major : String
  minor : String
  service : String
deriving DecidableEq

def skeyOf (r : RevenueRow) : SKey := ⟨r.album, r.major, r.minor, r.service⟩

/-- Code points of a string, the order in which Python compares strings. -/
def codes (s : String) : List ℕ := s.data.map Char.toNat

/-- Sort key under which pandas `groupby` emits the service groups:
the grouped columns compared lexicographically as strings. -/
def gKey (k : SKey) : List (List ℕ) :=
  [codes k.album, codes k.major, codes k.minor, codes k.service]

/-- Distinct group keys of the service-level `groupby`, in the sorted
order in which pandas iterates them. -/
def serviceKeys (rows : List RevenueRow) : List SKey :=
  ((rows.map skeyOf).dedup).mergeSort (keyLe gKey)

/-- Sum of 매출 순수익 over one service-level group. -/
def groupRevenue (rows : List RevenueRow) (k : SKey) : ℚ :=
  ((rows.filter (fun r => skeyOf r == k)).map (fun r => r.revenue)).sum

/-- One row of the service-level summary. -/
structure SRow where
  key : SKey
  revenue : ℚ
deriving DecidableEq

/-- Embeds the `service_summary` groupby of src/app.py lines 44-46:
one row per distinct (album, major, minor, service) key of the rows of
the artist, in group-iteration order. -/
def service_groupby (rows : List RevenueRow) (artist : String) : List SRow :=
  (serviceKeys (filterArtist rows artist)).map
    (fun k => ⟨k, groupRevenue (filterArtist rows artist) k⟩)

/-- Fixed priority list of 대분류 (src/app.py line 37). -/
def majorOrder : List String := ["국내", "해외", "YouTube"]

/-- Fixed priority list of 중분류 (src/app.py line 38). -/
def minorOrder : List String := ["광고수익", "구독수익", "기타", "스트리밍"]

/-- Fixed priority list of 서비스명 (src/app.py line 39). -/
def serviceOrder : List String := ["기타 서비스", "스트리밍", "스트리밍 (음원)", "Art Track", "Sound Recording"]

/-- Embeds `.map({v: i ...}).fillna(len(order))` (src/app.py lines
49-52): the position of the value in its priority list, or the length
of the list when the value is absent. -/
def rankOf (order : List String) (v : String) : ℕ := order.indexOf v

/-- Sort key of src/app.py lines 55-57: album name ascending, then the
three category ranks. -/
def customKey (r : SRow) : List (List ℕ) :=
  [codes r.key.album, [rankOf majorOrder r.key.major],
    [rankOf minorOrder r.key.minor], [rankOf serviceOrder r.key.service]]

/-- Embeds the sorted `service_summary` (src/app.py lines 44-57): the
grouped rows stably sorted by the domain sort key. -/
def service_summary (rows : List RevenueRow) (artist : String) : List SRow :=
  (service_groupby rows artist).mergeSort (keyLe customKey)

/-- One row of the album-level summary. -/
structure AlbumRow where
  album : String
  revenue : ℚ
deriving DecidableEq

/-- Distinct album keys of the album-level `groupby`, sorted. -/
def albumKeys (rows : List RevenueRow) : List String :=
  ((rows.map (fun r => r.album)).dedup).mergeSort (keyLe (fun a => [codes a]))

/-- Sum of 매출 순수익 over one album group. -/
def albumRevenue (rows : List RevenueRow) (a : String) : ℚ :=
  ((rows.filter (fun r => r.album == a)).map (fun r => r.revenue)).sum

/-- Embeds the `album_summary` groupby of src/app.py line 60. -/
def album_groupby (rows : List RevenueRow) (artist : String) : List AlbumRow :=
  (albumKeys (filterArtist rows artist)).map
    (fun a => ⟨a, albumRevenue (filterArtist rows artist) a⟩)

/-- Embeds `album_summary.sort_values(앨범명)` (src/app.py line 61). -/
def album_summary (rows : List RevenueRow) (artist : String) : List AlbumRow :=
  (album_groupby rows artist).mergeSort (keyLe (fun r => [codes r.album]))

/-- Embeds `total_revenue = float(album_summary[매출 순수익].sum())`
(src/app.py line 62). -/
def total_revenue (rows : List RevenueRow) (artist : String) : ℚ :=
  ((album_summary rows artist).map (fun r => r.revenue)).sum

/-! ## Sums over grouped rows -/

theorem sum_filter_split {R : Type} (p : R → Bool) (g : R → ℚ) :
    ∀ l : List R,
      ((l.filter p).map g).sum + ((l.filter (fun r => !p r)).map g).sum =
        (l.map g).sum := by
  intro l
  induction l with
  | nil => simp
  | cons a l ih =>
    by_cases h : p a = true
    · simp only [List.filter_cons, h, Bool.not_true, List.map_cons, List.sum_cons]
      simp only [if_true, if_false, List.map_cons, List.sum_cons, Bool.false_eq_true]
      rw [add_assoc, ih]
    · have h' : p a = false := Bool.of_not_eq_true h
      simp only [List.filter_cons, h', Bool.not_false, List.map_cons, List.sum_cons]
      simp only [if_true, if_false, List.map_cons, List.sum_cons, Bool.false_eq_true]
      rw [← add_assoc, add_comm (((l.filter p).map g).sum) (g a), add_assoc, ih]

theorem sum_fiberwise {κ R : Type} [DecidableEq κ] (f : R → κ) (g : R → ℚ) :
    ∀ (keys : List κ) (l : List R), keys.Nodup → (∀ r ∈ l, f r ∈ keys) →
      (keys.map (fun k => ((l.filter (fun r => f r == k)).map g).sum)).sum =
        (l.map g).sum := by
  intro keys
  induction keys with
  | nil =>
    intro l _ hcov
    cases l with
    | nil => simp
    | cons r l => exact absurd (hcov r (List.mem_cons_self r l)) (List.not_mem_nil _)
  | cons k ks ih =>
    intro l hnd hcov
    have hnd' := List.nodup_cons.mp hnd
    have hsplit := sum_filter_split (fun r => f r == k) g l
    have hks : ∀ k₀ ∈ ks,
        (l.filter (fun r => f r == k₀)) =
          ((l.filter (fun r => !(f r == k))).filter (fun r => f r == k₀)) := by
      intro k₀ hk₀
      rw [List.filter_filter]
      refine (List.filter_congr ?_).symm
      intro r _
      by_cases hr : f r = k₀
      · have hk₀k : k₀ ≠ k := by
          intro heq
          rw [heq] at hk₀
          exact hnd'.1 hk₀
        simp [hr, hk₀k]
      · simp [beq_eq_false_iff_ne.mpr hr]
    have hmapeq :
        ks.map (fun k₀ => ((l.filter (fun r => f r == k₀)).map g).sum) =
          ks.map (fun k₀ =>
            (((l.filter (fun r => !(f r == k))).filter (fun r => f r == k₀)).map g).sum) :=
      List.map_congr_left (fun k₀ hk₀ => by rw [hks k₀ hk₀])
    have hcov₂ : ∀ r ∈ l.filter (fun r => !(f r == k)), f r ∈ ks := by
      intro r hr
      have hmem := List.mem_filter.mp hr
      have hne : (f r == k) = false := by
        have h2 := hmem.2
        simp only [Bool.not_eq_eq_eq_not, Bool.not_true] at h2
        exact h2
      rcases List.mem_cons.mp (hcov r hmem.1) with h | h
      · rw [h] at hne
        simp at hne
      · exact h
    have hih := ih (l.filter (fun r => !(f r == k))) hnd'.2 hcov₂
    rw [List.map_cons, List.sum_cons, hmapeq, hih]
    exact hsplit

theorem sum_service_groupby (rows : List RevenueRow) (artist : String) :
    ((service_groupby rows artist).map (fun r => r.revenue)).sum =
      ((filterArtist rows artist).map (fun r => r.revenue)).sum := by
  unfold service_groupby
  rw [List.map_map]
  have hkeys : (serviceKeys (filterArtist rows artist)).Nodup :=
    ((List.mergeSort_perm _ _).nodup_iff).mpr (List.nodup_dedup _)
  refine Eq.trans ?_ (sum_fiberwise skeyOf (fun r => r.revenue)
    (serviceKeys (filterArtist rows artist)) (filterArtist rows artist) hkeys ?_)
  · rfl
  · intro r hr
    unfold serviceKeys
    rw [(List.mergeSort_perm _ _).mem_iff, List.mem_dedup]
    exact List.mem_map_of_mem skeyOf hr

theorem sum_album_groupby (rows : List RevenueRow) (artist : String) :
    ((album_groupby rows artist).map (fun r => r.revenue)).sum =
      ((filterArtist rows artist).map (fun r => r.revenue)).sum := by
  unfold album_groupby
  rw [List.map_map]
  have hkeys : (albumKeys (filterArtist rows artist)).Nodup :=
    ((List.mergeSort_perm _ _).nodup_iff).mpr (List.nodup_dedup _)
  refine Eq.trans ?_ (sum_fiberwise (fun r => r.album) (fun r => r.revenue)
    (albumKeys (filterArtist rows artist)) (filterArtist rows artist) hkeys ?_)
  · rfl
  · intro r hr
    unfold albumKeys
    rw [(List.mergeSort_perm _ _).mem_iff, List.mem_dedup]
    exact List.mem_map_of_mem (fun r => r.album) hr

/-- C1.  For every artist, the revenues of the service-level summary
rows, the revenues of the album-level summary rows, and totalRevenue
all have exactly the same sum: each equals the sum of the normalized
revenues of the rows of that artist. -/
theorem revenue_totals_consistent (rows : List RevenueRow) (artist : String) :
    ((service_summary rows artist).map (fun r => r.revenue)).sum =
        total_revenue rows artist ∧
      ((album_summary rows artist).map (fun r => r.revenue)).sum =
        total_revenue rows artist := by
  refine ⟨?_, rfl⟩
  have h₁ : ((service_summary rows artist).map (fun r => r.revenue)).sum =
      ((service_groupby rows artist).map (fun r => r.revenue)).sum := by
    unfold service_summary
    exact ((List.mergeSort_perm _ _).map (fun r : SRow => r.revenue)).sum_eq
  have h₂ : total_revenue rows artist =
      ((album_groupby rows artist).map (fun r => r.revenue)).sum := by
    unfold total_revenue album_summary
    exact ((List.mergeSort_perm _ _).map (fun r : AlbumRow => r.revenue)).sum_eq
  rw [h₁, h₂, sum_service_groupby, sum_album_groupby]

/-- C3.  The service-level summary is sorted by album name ascending,
then by the three category ranks taken from the fixed priority lists
(the comparator `keyLe customKey`); it is a permutation of the grouped
rows; ties under the sort key keep their group-iteration order (any
tied pair that is a sublist of the grouped rows is still a sublist of
the sorted output); and a category value absent from its priority list
ranks strictly after every listed value. -/
theorem service_summary_sort_spec (rows : List RevenueRow) (artist : String) :
    List.Pairwise (fun a b => keyLe customKey a b = true)
        (service_summary rows artist) ∧
      (service_summary rows artist).Perm (service_groupby rows artist) ∧
      (∀ a b : SRow, customKey a = customKey b →
        List.Sublist [a, b] (service_groupby rows artist) →
        List.Sublist [a, b] (service_summary rows artist)) ∧
      (∀ (order : List String) (v w : String), v ∉ order → w ∈ order →
        rankOf order w < rankOf order v) := by
  refine ⟨?_, ?_, ?_, ?_⟩
  · exact List.sorted_mergeSort (keyLe_trans customKey) (keyLe_total customKey) _
  · exact List.mergeSort_perm _ _
  · intro a b hk hsub
    refine List.sublist_mergeSort (keyLe_trans customKey) (keyLe_total customKey)
      ?_ hsub
    exact List.pairwise_pair.mpr (keyLe_of_key_eq customKey hk)
  · intro order v w hv hw
    unfold rankOf
    rw [List.indexOf_eq_length.mpr hv]
    exact List.indexOf_lt_length.mpr hw

/-- Concrete two-row input for the sort witness: one artist, one album,
two unlisted 대분류 values that tie under the custom sort key but are
distinct group keys. -/
def w3rows : List RevenueRow :=
  [⟨"A", "alb", "해외X", "기타", "스트리밍", 100⟩,
   ⟨"A", "alb", "해외Y", "기타", "스트리밍", 50⟩]

def w3k1 : SKey := ⟨"alb", "해외X", "기타", "스트리밍"⟩

def w3k2 : SKey := ⟨"alb", "해외Y", "기타", "스트리밍"⟩

def w3a : SRow := ⟨w3k1, groupRevenue (filterArtist w3rows "A") w3k1⟩

def w3b : SRow := ⟨w3k2, groupRevenue (filterArtist w3rows "A") w3k2⟩

theorem w3_serviceKeys : serviceKeys (filterArtist w3rows "A") = [w3k1, w3k2] := by
  unfold serviceKeys
  have h : (List.map skeyOf (filterArtist w3rows "A")).dedup = [w3k1, w3k2] := by decide
  rw [h]
  exact List.mergeSort_of_sorted (by decide)

theorem w3_groupby : service_groupby w3rows "A" = [w3a, w3b] := by
  unfold service_groupby
  rw [w3_serviceKeys]
  rfl

theorem w3_sorted : service_summary w3rows "A" = [w3a, w3b] := by
  unfold service_summary
  rw [w3_groupby]
  refine List.mergeSort_of_sorted (List.pairwise_pair.mpr ?_)
  exact keyLe_of_key_eq customKey (by decide)

/-- Witness for C3: the tie and sublist hypotheses of the stability
conjunct, and the membership hypotheses of the rank conjunct, hold and
are discharged at a concrete input. -/
theorem service_summary_sort_spec_witness :
    customKey w3a = customKey w3b ∧
      List.Sublist [w3a, w3b] (service_groupby w3rows "A") ∧
      List.Sublist [w3a, w3b] (service_summary w3rows "A") ∧
      "국내X" ∉ majorOrder ∧ "국내" ∈ majorOrder ∧
      rankOf majorOrder "국내" < rankOf majorOrder "국내X" := by
  have hk : customKey w3a = customKey w3b := by decide
  have hsub : List.Sublist [w3a, w3b] (service_groupby w3rows "A") := by
    rw [w3_groupby]
  refine ⟨hk, hsub,
    (service_summary_sort_spec w3rows "A").2.2.1 w3a w3b hk hsub,
    by decide, by decide,
    (service_summary_sort_spec w3rows "A").2.2.2 majorOrder "국내X" "국내"
      (by decide) (by decide)⟩

/-! ## Cost lookup and the deduction/distribution calculator

Embeds the second half of `process_data` (src/app.py lines 64-80).
`CostRow` fields map to the song ledger columns: artist = 아티스트명,
prevBalance = 전월 잔액, deduction = 당월 차감액, balance = 당월 잔액,
rate = 정산 요율 (all already normalized by `generate_reports`). -/

structure CostRow where
  artist : String
  prevBalance : ℚ
  deduction : ℚ
  balance : ℚ
  rate : ℚ
deriving DecidableEq

/-- Embeds `song_data[song_data[아티스트명] == artist].iloc[0]`
(src/app.py line 65): `none` models the IndexError raised when no row
matches; when several rows match, `.iloc[0]` silently yields the first. -/
def lookupCost (song : List CostRow) (artist : String) : Option CostRow :=
  (song.filter (fun r => r.artist == artist)).head?

/-- Embeds `deduction_data` (src/app.py lines 66-71): 곡비, 공제 금액,
공제 후 남은 곡비, 공제 적용 금액. -/
structure DeductionData where
  prevBalance : ℚ
  deduction : ℚ
  balance : ℚ
  applied : ℚ
deriving DecidableEq

/-- Embeds `distribution_data` (src/app.py lines 74-78): 적용율 and
적용 금액 (the 항목 label column is constant and carries no data). -/
structure DistributionData where
  rate : ℚ
  applied : ℚ
deriving DecidableEq

/-- The five values returned by `process_data` (src/app.py line 80). -/
structure Settlement where
  serviceSummary : List SRow
  albumSummary : List AlbumRow
  totalRevenue : ℚ
  deduction : DeductionData
  distribution : DistributionData
deriving DecidableEq

/-- Embeds `process_data` (src/app.py lines 33-80): aggregation, cost
lookup, deduction arithmetic and distribution arithmetic; `none` models
the IndexError escaping when no cost row matches the artist. -/
def process_data (revenue : List RevenueRow) (song : List CostRow)
    (artist : String) : Option Settlement :=
  match lookupCost song artist with
  | none => none
  | some c => some
      { serviceSummary := service_summary revenue artist
        albumSummary := album_summary revenue artist
        totalRevenue := total_revenue revenue artist
        deduction := ⟨c.prevBalance, c.deduction, c.balance,
          total_revenue revenue artist - c.deduction⟩
        distribution := ⟨c.rate,
          (total_revenue revenue artist - c.deduction) * c.rate⟩ }

/-- Shape of the settlement produced once the cost lookup succeeds,
read off from src/app.py lines 66-80. -/
theorem process_data_eq_of_lookup (revenue : List RevenueRow)
    (song : List CostRow) (artist : String) (c : CostRow)
    (h : lookupCost song artist = some c) :
    process_data revenue song artist = some
      { serviceSummary := service_summary revenue artist
        albumSummary := album_summary revenue artist
        totalRevenue := total_revenue revenue artist
        deduction := ⟨c.prevBalance, c.deduction, c.balance,
          total_revenue revenue artist - c.deduction⟩
        distribution := ⟨c.rate,
          (total_revenue revenue artist - c.deduction) * c.rate⟩ } := by
  unfold process_data
  rw [h]

/-- C2.  Whenever a cost row is found, the calculator returns
revenueAfterDeduction = totalRevenue − currentDeduction and
payableAmount = revenueAfterDeduction × shareRate, with no clamping:
the result is still returned (no exception) and is negative exactly
when the deduction exceeds the total revenue. -/
theorem deduction_distribution_formula (revenue : List RevenueRow)
    (song : List CostRow) (artist : String) (c : CostRow)
    (h : lookupCost song artist = some c) :
    ∃ s : Settlement, process_data revenue song artist = some s ∧
      s.totalRevenue = total_revenue revenue artist ∧
      s.deduction.applied = total_revenue revenue artist - c.deduction ∧
      s.distribution.rate = c.rate ∧
      s.distribution.applied = s.deduction.applied * c.rate ∧
      (total_revenue revenue artist < c.deduction → s.deduction.applied < 0) :=
  ⟨_, process_data_eq_of_lookup revenue song artist c h, rfl, rfl, rfl, rfl,
    fun hneg => sub_neg.mpr hneg⟩

/-- Concrete data for the negative-distribution witness: one revenue row
of 200 and one cost row deducting 300 at rate 1/2. -/
def w2rows : List RevenueRow := [⟨"A", "alb", "국내", "스트리밍", "스트리밍", 200⟩]

def w2cost : CostRow := ⟨"A", 1000, 300, 700, 1/2⟩

def w2song : List CostRow := [w2cost]

theorem w2_total : total_revenue w2rows "A" = 200 := by
  have hkeys : albumKeys (filterArtist w2rows "A") = ["alb"] := by
    unfold albumKeys
    have h : ((filterArtist w2rows "A").map (fun r => r.album)).dedup = ["alb"] := by
      decide
    rw [h, List.mergeSort_singleton]
  have hgrp : album_groupby w2rows "A" =
      [⟨"alb", albumRevenue (filterArtist w2rows "A") "alb"⟩] := by
    unfold album_groupby
    rw [hkeys]
    rfl
  unfold total_revenue album_summary
  rw [hgrp, List.mergeSort_singleton]
  have hrev : albumRevenue (filterArtist w2rows "A") "alb" = 200 := by
    unfold albumRevenue filterArtist w2rows
    simp
  simp [hrev]

/-- Witness for C2: at the concrete negative scenario the hypothesis of
the theorem is discharged and the deduction of 300 against a total
revenue of 200 yields revenueAfterDeduction −100 and payableAmount −50,
with no failure. -/
theorem deduction_distribution_formula_witness :
    lookupCost w2song "A" = some w2cost ∧
      ∃ s : Settlement, process_data w2rows w2song "A" = some s ∧
        s.deduction.applied = -100 ∧ s.distribution.applied = -50 := by
  have h : lookupCost w2song "A" = some w2cost := rfl
  obtain ⟨s, hs, htot, happ, hrate, hdist, _⟩ :=
    deduction_distribution_formula w2rows w2song "A" w2cost h
  refine ⟨h, s, hs, ?_, ?_⟩
  · rw [happ, w2_total]
    norm_num [w2cost]
  · rw [hdist, happ, w2_total]
    norm_num [w2cost]

/-- Two cost rows matching the same artist: ambiguous cost data. -/
def w4song : List CostRow := [⟨"A", 1, 2, 3, 4⟩, ⟨"A", 5, 6, 7, 8⟩]

/-- C4 counterexample: with two cost rows matching artist A, the lookup
does not fail — `.iloc[0]` silently picks the first matching row and
`process_data` succeeds, contradicting the claim that an ambiguous
match fails like an absent one. -/
theorem cost_lookup_duplicate_no_error :
    (w4song.filter (fun r => r.artist == "A")).length = 2 ∧
      lookupCost w4song "A" = some ⟨"A", 1, 2, 3, 4⟩ ∧
      (process_data [] w4song "A").isSome = true :=
  ⟨rfl, rfl, rfl⟩

/-- C4 amended.  The deduction/distribution step fails exactly when the
number of matching cost rows is zero; when one or more rows match, the
first matching row is used silently, a default is never invented, and
no error is raised for an ambiguous (more-than-one) match. -/
theorem cost_lookup_zero_iff_error (revenue : List RevenueRow)
    (song : List CostRow) (artist : String) :
    (process_data revenue song artist = none ↔
        (song.filter (fun r => r.artist == artist)).length = 0) ∧
      (∀ c rest, song.filter (fun r => r.artist == artist) = c :: rest →
        ∃ s : Settlement, process_data revenue song artist = some s ∧
          s.deduction.deduction = c.deduction ∧
          s.distribution.rate = c.rate) := by
  constructor
  · unfold process_data lookupCost
    cases hf : song.filter (fun r => r.artist == artist) with
    | nil => simp
    | cons c rest => simp
  · intro c rest hf
    have h : lookupCost song artist = some c := by
      unfold lookupCost
      rw [hf]
      rfl
    exact ⟨_, process_data_eq_of_lookup revenue song artist c h, rfl, rfl⟩

/-- Witness for C4: the cons-shaped filter hypothesis of the amended
theorem is discharged on the ambiguous two-row ledger. -/
theorem cost_lookup_zero_iff_error_witness :
    w4song.filter (fun r => r.artist == "A") =
        (⟨"A", 1, 2, 3, 4⟩ : CostRow) :: [⟨"A", 5, 6, 7, 8⟩] ∧
      ∃ s : Settlement, process_data [] w4song "A" = some s ∧
        s.deduction.deduction = (2 : ℚ) ∧ s.distribution.rate = (4 : ℚ) := by
  have hf : w4song.filter (fun r => r.artist == "A") =
      (⟨"A", 1, 2, 3, 4⟩ : CostRow) :: [⟨"A", 5, 6, 7, 8⟩] := rfl
  exact ⟨hf, (cost_lookup_zero_iff_error [] w4song "A").2 ⟨"A", 1, 2, 3, 4⟩
    [⟨"A", 5, 6, 7, 8⟩] hf⟩

/-! ## Batch orchestrator

Embeds `generate_reports` (src/app.py lines 435-544).  The per-artist
loop runs `process_data`, renders the report, and appends the artist to
`processed_artists`; any exception is caught, recorded as
`(artist, str(e))` in `failed_artists`, and the loop continues.  The
only exception the embedded computation can raise is the IndexError of
the cost lookup.  Spreadsheet/ZIP/PDF writing is collaborator output
with no effect on the success ledger (a PDF failure only emits a
warning), so it is not modelled. -/

/-- Embeds `create_html_content` (src/app.py lines 82-317).  The
rendered report is a fixed 200-line template with interpolated values;
the orchestrator only ever tests its truthiness, so the body is
abridged to the start of the static skeleton plus the interpolated
header fields.  Only non-emptiness is load-bearing. -/
def create_html_content (artist issueDate : String) (_s : Settlement) : String :=
  "<!DOCTYPE html><html>" ++ issueDate ++ artist

/-- Message of the pandas IndexError raised by `.iloc[0]` on an empty
selection, the `str(e)` recorded by the orchestrator. -/
def ilocErrorMsg : String := "single positional indexer is out-of-bounds"

/-- One iteration of the per-artist loop (src/app.py lines 470-519). -/
def batchStep (revenue : List RevenueRow) (song : List CostRow) (issueDate : String)
    (acc : List String × List (String × String)) (artist : String) :
    List String × List (String × String) :=
  match process_data revenue song artist with
  | some s =>
    if create_html_content artist issueDate s = "" then acc
    else (acc.1 ++ [artist], acc.2)
  | none => (acc.1, acc.2 ++ [(artist, ilocErrorMsg)])

/-- The per-artist loop: returns (processed_artists, failed_artists). -/
def runBatch (revenue : List RevenueRow) (song : List CostRow) (issueDate : String)
    (artists : List String) : List String × List (String × String) :=
  artists.foldl (batchStep revenue song issueDate) ([], [])

/-- Embeds `pd.unique` on a column (src/app.py line 457): distinct
values in order of first appearance, via a seen accumulator. -/
def uniqueAux (seen : List String) : List String → List String
  | [] => []
  | a :: rest =>
    if a ∈ seen then uniqueAux seen rest
    else a :: uniqueAux (a :: seen) rest

def uniqueFirst (l : List String) : List String := uniqueAux [] l

/-- Embeds `artists = revenue_df[앨범아티스트].unique()` (line 457). -/
def extractArtists (rows : List RevenueRow) : List String :=
  uniqueFirst (rows.map (fun r => r.artist))

theorem mem_uniqueAux (a : String) :
    ∀ (l seen : List String), a ∈ uniqueAux seen l ↔ a ∈ l ∧ a ∉ seen := by
  intro l
  induction l with
  | nil => intro seen; simp [uniqueAux]
  | cons b rest ih =>
    intro seen
    by_cases hb : b ∈ seen
    · rw [uniqueAux, if_pos hb, ih]
      constructor
      · exact fun h => ⟨List.mem_cons_of_mem b h.1, h.2⟩
      · rintro ⟨h₁, h₂⟩
        rcases List.mem_cons.mp h₁ with h | h
        · exact absurd (h ▸ hb) h₂
        · exact ⟨h, h₂⟩
    · rw [uniqueAux, if_neg hb]
      constructor
      · intro h
        rcases List.mem_cons.mp h with h | h
        · exact ⟨h ▸ List.mem_cons_self b rest, h ▸ hb⟩
        · have := (ih (b :: seen)).mp h
          exact ⟨List.mem_cons_of_mem b this.1,
            fun hs => this.2 (List.mem_cons_of_mem b hs)⟩
      · rintro ⟨h₁, h₂⟩
        rcases List.mem_cons.mp h₁ with h | h
        · exact h ▸ List.mem_cons_self b _
        · by_cases hab : a = b
          · exact hab ▸ List.mem_cons_self b _
          · exact List.mem_cons_of_mem b ((ih (b :: seen)).mpr
              ⟨h, fun hs => (List.mem_cons.mp hs).elim hab h₂⟩)

theorem mem_uniqueFirst (a : String) (l : List String) :
    a ∈ uniqueFirst l ↔ a ∈ l := by
  rw [uniqueFirst, mem_uniqueAux]
  simp

theorem nodup_uniqueAux : ∀ (l seen : List String), (uniqueAux seen l).Nodup := by
  intro l
  induction l with
  | nil => intro seen; simp [uniqueAux]
  | cons b rest ih =>
    intro seen
    by_cases hb : b ∈ seen
    · rw [uniqueAux, if_pos hb]
      exact ih seen
    · rw [uniqueAux, if_neg hb]
      refine List.nodup_cons.mpr ⟨?_, ih (b :: seen)⟩
      intro hmem
      exact ((mem_uniqueAux b rest (b :: seen)).mp hmem).2 (List.mem_cons_self b seen)

theorem nodup_extractArtists (rows : List RevenueRow) :
    (extractArtists rows).Nodup :=
  nodup_uniqueAux _ []

theorem create_html_content_ne_empty (artist issueDate : String) (s : Settlement) :
    create_html_content artist issueDate s ≠ "" := by
  intro h
  have hlen := congrArg String.length h
  simp only [create_html_content, String.length_append] at hlen
  have h21 : ("<!DOCTYPE html><html>" : String).length = 21 := by decide
  have h0 : ("" : String).length = 0 := rfl
  rw [h21, h0] at hlen
  omega

theorem foldl_batchStep (revenue : List RevenueRow) (song : List CostRow)
    (issueDate : String) :
    ∀ (artists : List String) (acc : List String × List (String × String)),
      artists.foldl (batchStep revenue song issueDate) acc =
        (acc.1 ++ artists.filter (fun a => (process_data revenue song a).isSome),
          acc.2 ++ (artists.filter (fun a => (process_data revenue song a).isNone)).map
            (fun a => (a, ilocErrorMsg))) := by
  intro artists
  induction artists with
  | nil => intro acc; simp
  | cons a rest ih =>
    intro acc
    rw [List.foldl_cons, ih]
    cases hp : process_data revenue song a with
    | none =>
      have hstep : batchStep revenue song issueDate acc a =
          (acc.1, acc.2 ++ [(a, ilocErrorMsg)]) := by
        unfold batchStep
        rw [hp]
      rw [hstep]
      simp [List.filter_cons, hp]
    | some s =>
      have hstep : batchStep revenue song issueDate acc a =
          (acc.1 ++ [a], acc.2) := by
        unfold batchStep
        rw [hp]
        show (if create_html_content a issueDate s = "" then acc
          else (acc.1 ++ [a], acc.2)) = _
        rw [if_neg (create_html_content_ne_empty a issueDate s)]
      rw [hstep]
      simp [List.filter_cons, hp]

theorem runBatch_processed (revenue : List RevenueRow) (song : List CostRow)
    (issueDate : String) (artists : List String) :
    runBatch revenue song issueDate artists =
      (artists.filter (fun a => (process_data revenue song a).isSome),
        (artists.filter (fun a => (process_data revenue song a).isNone)).map
          (fun a => (a, ilocErrorMsg))) := by
  rw [runBatch, foldl_batchStep]
  simp

/-- C6.  Every artist extracted from the revenue ledger lands in exactly
one of processed_artists and failed_artists: the lists partition the
(duplicate-free) artist set, their lengths add up to the unique artist
count, every failure is recorded with the non-empty reason string of the
raising lookup, and an artist succeeds exactly when its own settlement
computation succeeds — a failing sibling removes nobody else. -/
theorem batch_partition (revenue : List RevenueRow) (song : List CostRow)
    (issueDate : String) :
    (extractArtists revenue).Nodup ∧
      (runBatch revenue song issueDate (extractArtists revenue)).1.length +
          (runBatch revenue song issueDate (extractArtists revenue)).2.length =
        (extractArtists revenue).length ∧
      (∀ a, a ∈ extractArtists revenue ↔
        (a ∈ (runBatch revenue song issueDate (extractArtists revenue)).1 ∨
          a ∈ (runBatch revenue song issueDate (extractArtists revenue)).2.map Prod.fst)) ∧
      (∀ a, a ∈ (runBatch revenue song issueDate (extractArtists revenue)).1 →
        a ∉ (runBatch revenue song issueDate (extractArtists revenue)).2.map Prod.fst) ∧
      (∀ p ∈ (runBatch revenue song issueDate (extractArtists revenue)).2,
        p.2 = ilocErrorMsg) ∧ ilocErrorMsg ≠ "" ∧
      (∀ a ∈ extractArtists revenue,
        (a ∈ (runBatch revenue song issueDate (extractArtists revenue)).1 ↔
          (process_data revenue song a).isSome = true)) := by
  rw [runBatch_processed]
  have hnot : ∀ a : String, (process_data revenue song a).isNone =
      !(process_data revenue song a).isSome := by
    intro a
    cases process_data revenue song a <;> rfl
  have hfil : (extractArtists revenue).filter
        (fun a => (process_data revenue song a).isNone) =
      (extractArtists revenue).filter
        (fun a => !(process_data revenue song a).isSome) :=
    List.filter_congr (fun a _ => hnot a)
  have hfst : (((extractArtists revenue).filter
        (fun a => (process_data revenue song a).isNone)).map
          (fun a => (a, ilocErrorMsg))).map Prod.fst =
      (extractArtists revenue).filter
        (fun a => (process_data revenue song a).isNone) := by
    rw [List.map_map]
    have hcomp : (Prod.fst ∘ fun a : String => (a, ilocErrorMsg)) = id := rfl
    rw [hcomp, List.map_id]
  refine ⟨nodup_extractArtists revenue, ?_, ?_, ?_, ?_, by decide, ?_⟩
  · rw [List.length_map, hfil]
    exact (List.length_eq_length_filter_add
      (fun a => (process_data revenue song a).isSome)).symm
  · intro a
    rw [hfst]
    cases hpd : process_data revenue song a <;> simp [List.mem_filter, hpd]
  · intro a ha
    rw [hfst]
    have hp := (List.mem_filter.mp ha).2
    intro hmem
    have hn := (List.mem_filter.mp hmem).2
    cases hpd : process_data revenue song a with
    | none => rw [hpd] at hp; simp at hp
    | some s => rw [hpd] at hn; simp at hn
  · intro p hp
    obtain ⟨b, _, rfl⟩ := List.mem_map.mp hp
    rfl
  · intro a ha
    constructor
    · intro h
      exact (List.mem_filter.mp h).2
    · intro h
      exact List.mem_filter.mpr ⟨ha, h⟩

/-! ## Behavior on an artist with no revenue rows (C8) -/

/-- Revenue ledger containing only artist B. -/
def w8rows : List RevenueRow := [⟨"B", "alb", "국내", "스트리밍", "스트리밍", 100⟩]

/-- Cost ledger containing a valid cost row for artist A. -/
def w8song : List CostRow := [⟨"A", 0, 0, 0, 1⟩]

theorem w8_service_empty : service_summary w8rows "A" = [] := by
  have hkeys : serviceKeys (filterArtist w8rows "A") = [] := by
    unfold serviceKeys
    have h : (List.map skeyOf (filterArtist w8rows "A")).dedup = [] := by decide
    rw [h, List.mergeSort_nil]
  unfold service_summary service_groupby
  rw [hkeys]
  show List.mergeSort [] (keyLe customKey) = []
  rw [List.mergeSort_nil]

theorem w8_album_empty : album_summary w8rows "A" = [] := by
  have hkeys : albumKeys (filterArtist w8rows "A") = [] := by
    unfold albumKeys
    have h : ((filterArtist w8rows "A").map (fun r => r.album)).dedup = [] := by decide
    rw [h, List.mergeSort_nil]
  unfold album_summary album_groupby
  rw [hkeys]
  show List.mergeSort [] (keyLe (fun r : AlbumRow => [codes r.album])) = []
  rw [List.mergeSort_nil]

/-- C8 counterexample: for artist A, whose filtered revenue-row set is
empty, `process_data` raises nothing and returns a settlement with an
empty service summary, an empty album summary and totalRevenue 0 — the
claimed NoRevenueDataError does not exist in the code and an empty
zero-total settlement is produced. -/
theorem empty_revenue_not_an_error :
    filterArtist w8rows "A" = [] ∧
      (process_data w8rows w8song "A").isSome = true ∧
      (process_data w8rows w8song "A").map (fun s => s.totalRevenue) = some 0 ∧
      (process_data w8rows w8song "A").map (fun s => s.serviceSummary) = some [] := by
  have hp : process_data w8rows w8song "A" = some
      { serviceSummary := service_summary w8rows "A"
        albumSummary := album_summary w8rows "A"
        totalRevenue := total_revenue w8rows "A"
        deduction := ⟨0, 0, 0, total_revenue w8rows "A" - 0⟩
        distribution := ⟨1, (total_revenue w8rows "A" - 0) * 1⟩ } := by
    unfold process_data
    rw [show lookupCost w8song "A" = some ⟨"A", 0, 0, 0, 1⟩ from rfl]
  have htot : total_revenue w8rows "A" = 0 := by
    unfold total_revenue
    rw [w8_album_empty]
    rfl
  refine ⟨rfl, ?_, ?_, ?_⟩
  · rw [hp]; rfl
  · rw [hp]
    exact congrArg some htot
  · rw [hp]
    exact congrArg some w8_service_empty

/-- C8 amended.  An artist whose filtered revenue-row set is empty gets
an empty service summary, an empty album summary and totalRevenue 0,
and the aggregation raises no error (the settlement is still produced
whenever the cost lookup succeeds); in the batch this case never
arises, because the artist set is extracted from the revenue ledger
itself, so every processed artist has at least one revenue row. -/
theorem empty_revenue_zero_settlement (rows : List RevenueRow)
    (song : List CostRow) (artist : String)
    (h : filterArtist rows artist = []) :
    service_summary rows artist = [] ∧ album_summary rows artist = [] ∧
      total_revenue rows artist = 0 ∧
      (∀ c, lookupCost song artist = some c →
        (process_data rows song artist).isSome = true) ∧
      (∀ a ∈ extractArtists rows, filterArtist rows a ≠ []) := by
  have hskeys : serviceKeys (filterArtist rows artist) = [] := by
    unfold serviceKeys
    rw [h]
    show List.mergeSort [] (keyLe gKey) = []
    rw [List.mergeSort_nil]
  have hakeys : albumKeys (filterArtist rows artist) = [] := by
    unfold albumKeys
    rw [h]
    show List.mergeSort [] (keyLe (fun a : String => [codes a])) = []
    rw [List.mergeSort_nil]
  have halb : album_summary rows artist = [] := by
    unfold album_summary album_groupby
    rw [hakeys]
    show List.mergeSort [] (keyLe (fun r : AlbumRow => [codes r.album])) = []
    rw [List.mergeSort_nil]
  refine ⟨?_, halb, ?_, ?_, ?_⟩
  · unfold service_summary service_groupby
    rw [hskeys]
    show List.mergeSort [] (keyLe customKey) = []
    rw [List.mergeSort_nil]
  · unfold total_revenue
    rw [halb]
    rfl
  · intro c hc
    rw [process_data_eq_of_lookup rows song artist c hc]
    rfl
  · intro a ha
    have hmem : a ∈ rows.map (fun r => r.artist) :=
      (mem_uniqueFirst a _).mp ha
    obtain ⟨r, hr, hra⟩ := List.mem_map.mp hmem
    intro hempty
    have : r ∈ filterArtist rows a :=
      List.mem_filter.mpr ⟨hr, by rw [hra]; exact beq_self_eq_true a⟩
    rw [hempty] at this
    exact List.not_mem_nil r this

/-- Witness for C8: the empty-filter hypothesis of the amended theorem
is discharged at the concrete ledger that only contains artist B. -/
theorem empty_revenue_zero_settlement_witness :
    filterArtist w8rows "A" = [] ∧ service_summary w8rows "A" = [] ∧
      total_revenue w8rows "A" = 0 := by
  have h : filterArtist w8rows "A" = [] := rfl
  have hmain := empty_revenue_zero_settlement w8rows w8song "A" h
  exact ⟨h, hmain.1, hmain.2.2.1⟩

/-! ## Raw input tables and the pre-loop phase of generate_reports

Embeds src/app.py lines 446-459: the column rename, the column-wise
numeric preprocessing (a KeyError escapes when a required column is
missing), the artist extraction (KeyError when 앨범아티스트 is
missing), and the empty-artist check.  Column presence is carried by
Booleans; row content is carried by typed raw rows whose numeric cells
are still unnormalized `CellValue`s.  (The grouping columns used inside
the loop, and 아티스트명 of the song table, are assumed present by the
typed rows; their absence would surface as per-artist KeyErrors, which
claim C9 does not exercise.) -/

structure RawRevenueRow where
  artist : String
  album : String
  major : String
  minor : String
  service : String
  netRevenue : CellValue

/-- The revenue ledger as uploaded: column-presence flags for
매출 순수익, 권리사정산금액 and 앨범아티스트, plus the rows. -/
structure RawRevenueTable where
  hasNetRevenueCol : Bool
  hasRightsCol : Bool
  hasArtistCol : Bool
  rows : List RawRevenueRow

structure RawCostRow where
  artist : String
  prevBalance : CellValue
  deduction : CellValue
  balance : CellValue
  rate : CellValue

/-- The song ledger as uploaded: column-presence flags for 전월 잔액,
당월 차감액, 당월 잔액 and 정산 요율, plus the rows. -/
structure RawSongTable where
  hasPrevCol : Bool
  hasDeductionCol : Bool
  hasBalanceCol : Bool
  hasRateCol : Bool
  rows : List RawCostRow

/-- Message of the KeyError escaping from a missing-column access. -/
def keyErrorMsg (col : String) : String := "KeyError: " ++ col

/-- Column-wise normalization of one revenue row (line 451). -/
def cleanRevenueRow (r : RawRevenueRow) : RevenueRow :=
  ⟨r.artist, r.album, r.major, r.minor, r.service, clean_numeric_value r.netRevenue⟩

/-- Column-wise normalization of one song row (lines 452-454). -/
def cleanCostRow (r : RawCostRow) : CostRow :=
  ⟨r.artist, clean_numeric_value r.prevBalance, clean_numeric_value r.deduction,
    clean_numeric_value r.balance, clean_numeric_value r.rate⟩

/-- Embeds `generate_reports` (src/app.py lines 435-544): rename 권리사정산금액
to 매출 순수익 when needed, normalize the numeric columns (KeyError on the
first missing column, in the evaluation order of the source), extract
the unique artists (KeyError when the artist column is missing,
ValueError when no artist is found), then run the per-artist loop.
Every error aborts before any per-artist processing. -/
def generate_reports (rt : RawRevenueTable) (st : RawSongTable)
    (issueDate : String) :
    Except String (List String × List (String × String)) :=
  if (rt.hasNetRevenueCol || rt.hasRightsCol) = false then
    .error (keyErrorMsg "매출 순수익")
  else if st.hasPrevCol = false then .error (keyErrorMsg "전월 잔액")
  else if st.hasDeductionCol = false then .error (keyErrorMsg "당월 차감액")
  else if st.hasBalanceCol = false then .error (keyErrorMsg "당월 잔액")
  else if st.hasRateCol = false then .error (keyErrorMsg "정산 요율")
  else if rt.hasArtistCol = false then .error (keyErrorMsg "앨범아티스트")
  else
    let revenue := rt.rows.map cleanRevenueRow
    let song := st.rows.map cleanCostRow
    let artists := extractArtists revenue
    if artists.isEmpty then .error "아티스트 정보를 찾을 수 없습니다."
    else .ok (runBatch revenue song issueDate artists)

/-- Modelled from the spec: §4.2 describes a Ledger Validator returning
the list of all problems found, missing required columns enumerated per
table plus empty tables, with the empty list meaning valid.  No
function of src returns such a list; this definition follows the
wording of the spec so that the claimed behavior can be compared with
the code. -/
def spec_validate (rt : RawRevenueTable) (st : RawSongTable) : List String :=
  (if rt.hasNetRevenueCol || rt.hasRightsCol then [] else [keyErrorMsg "매출 순수익"]) ++
    (if rt.hasArtistCol then [] else [keyErrorMsg "앨범아티스트"]) ++
    (if st.hasPrevCol then [] else [keyErrorMsg "전월 잔액"]) ++
    (if st.hasDeductionCol then [] else [keyErrorMsg "당월 차감액"]) ++
    (if st.hasBalanceCol then [] else [keyErrorMsg "당월 잔액"]) ++
    (if st.hasRateCol then [] else [keyErrorMsg "정산 요율"]) ++
    (if rt.rows.isEmpty then ["revenue table is empty"] else []) ++
    (if st.rows.isEmpty then ["song table is empty"] else [])

/-- The problems the code actually reports: the single aborting error,
or nothing on success. -/
def problemsReported :
    Except String (List String × List (String × String)) → List String
  | .error e => [e]
  | .ok _ => []

/-- Revenue table with both revenue-column names missing and no rows. -/
def w9rt : RawRevenueTable := ⟨false, false, true, []⟩

/-- Song table whose 정산 요율 column is missing and which has no rows. -/
def w9st : RawSongTable := ⟨true, true, true, false, []⟩

/-- C9 counterexample: on an input with four problems (missing revenue
column, missing rate column, two empty tables) the code aborts with the
first problem only; the enumerated problem list required by the claim
is never produced. -/
theorem validation_single_error_only :
    generate_reports w9rt w9st "d" = .error (keyErrorMsg "매출 순수익") ∧
      (spec_validate w9rt w9st).length = 4 ∧
      problemsReported (generate_reports w9rt w9st "d") ≠ spec_validate w9rt w9st := by
  exact ⟨rfl, rfl, by decide⟩

/-- C9 amended.  The pre-loop phase aborts the whole batch, before any
per-artist processing, exactly when a required column is missing or the
revenue table yields no artist; it raises on the first problem found
rather than returning an enumerated problem list, and on success the
per-artist loop runs on the column-wise normalized tables. -/
theorem validation_abort_iff (rt : RawRevenueTable) (st : RawSongTable)
    (d : String) :
    ((∃ e, generate_reports rt st d = .error e) ↔
        ((rt.hasNetRevenueCol || rt.hasRightsCol) = false ∨
          st.hasPrevCol = false ∨ st.hasDeductionCol = false ∨
          st.hasBalanceCol = false ∨ st.hasRateCol = false ∨
          rt.hasArtistCol = false ∨ rt.rows = [])) ∧
      (∀ r, generate_reports rt st d = .ok r →
        r = runBatch (rt.rows.map cleanRevenueRow) (st.rows.map cleanCostRow) d
          (extractArtists (rt.rows.map cleanRevenueRow))) := by
  have hempty : (extractArtists (rt.rows.map cleanRevenueRow)).isEmpty = true ↔
      rt.rows = [] := by
    constructor
    · intro h
      cases hr : rt.rows with
      | nil => rfl
      | cons r rest =>
        exfalso
        have hmem0 : r ∈ rt.rows := by
          rw [hr]
          exact List.mem_cons_self r rest
        have hmem1 : cleanRevenueRow r ∈ rt.rows.map cleanRevenueRow :=
          List.mem_map_of_mem cleanRevenueRow hmem0
        have hmem : (cleanRevenueRow r).artist ∈
            extractArtists (rt.rows.map cleanRevenueRow) := by
          rw [extractArtists, mem_uniqueFirst]
          exact List.mem_map_of_mem (fun r => r.artist) hmem1
        rw [List.isEmpty_iff] at h
        rw [h] at hmem
        exact List.not_mem_nil _ hmem
    · intro h
      rw [extractArtists, h]
      rfl
  unfold generate_reports
  by_cases h₁ : (rt.hasNetRevenueCol || rt.hasRightsCol) = false
  · rw [if_pos h₁]
    exact ⟨⟨fun _ => Or.inl h₁, fun _ => ⟨_, rfl⟩⟩, fun r hr => by cases hr⟩
  · rw [if_neg h₁]
    by_cases h₂ : st.hasPrevCol = false
    · rw [if_pos h₂]
      exact ⟨⟨fun _ => Or.inr (Or.inl h₂), fun _ => ⟨_, rfl⟩⟩, fun r hr => by cases hr⟩
    · rw [if_neg h₂]
      by_cases h₃ : st.hasDeductionCol = false
      · rw [if_pos h₃]
        exact ⟨⟨fun _ => Or.inr (Or.inr (Or.inl h₃)), fun _ => ⟨_, rfl⟩⟩,
          fun r hr => by cases hr⟩
      · rw [if_neg h₃]
        by_cases h₄ : st.hasBalanceCol = false
        · rw [if_pos h₄]
          exact ⟨⟨fun _ => Or.inr (Or.inr (Or.inr (Or.inl h₄))), fun _ => ⟨_, rfl⟩⟩,
            fun r hr => by cases hr⟩
        · rw [if_neg h₄]
          by_cases h₅ : st.hasRateCol = false
          · rw [if_pos h₅]
            exact ⟨⟨fun _ => Or.inr (Or.inr (Or.inr (Or.inr (Or.inl h₅)))),
              fun _ => ⟨_, rfl⟩⟩, fun r hr => by cases hr⟩
          · rw [if_neg h₅]
            by_cases h₆ : rt.hasArtistCol = false
            · rw [if_pos h₆]
              exact ⟨⟨fun _ => Or.inr (Or.inr (Or.inr (Or.inr (Or.inr (Or.inl h₆))))),
                fun _ => ⟨_, rfl⟩⟩, fun r hr => by cases hr⟩
            · rw [if_neg h₆]
              by_cases h₇ : (extractArtists (rt.rows.map cleanRevenueRow)).isEmpty = true
              · rw [if_pos h₇]
                refine ⟨⟨fun _ => ?_, fun _ => ⟨_, rfl⟩⟩, fun r hr => by cases hr⟩
                exact Or.inr (Or.inr (Or.inr (Or.inr (Or.inr (Or.inr (hempty.mp h₇))))))
              · rw [if_neg h₇]
                refine ⟨⟨fun he => ?_, fun hd => ?_⟩, fun r hr => ?_⟩
                · obtain ⟨e, he⟩ := he
                  cases he
                · rcases hd with h | h | h | h | h | h | h
                  · exact absurd h h₁
                  · exact absurd h h₂
                  · exact absurd h h₃
                  · exact absurd h h₄
                  · exact absurd h h₅
                  · exact absurd h h₆
                  · exact absurd (hempty.mpr h) h₇
                · cases hr
                  rfl

/-- Valid one-row tables on which the pre-loop phase succeeds. -/
def w9okRt : RawRevenueTable :=
  ⟨true, false, true, [⟨"A", "alb", "국내", "스트리밍", "스트리밍", .num 100⟩]⟩

def w9okSt : RawSongTable := ⟨true, true, true, true, [⟨"A", .num 0, .num 0, .num 0, .num 1⟩]⟩

/-- Witness for C9: the ok-shaped hypothesis of the amended theorem is
discharged on a concrete valid input, whose batch runs on the
normalized tables. -/
theorem validation_abort_iff_witness :
    generate_reports w9okRt w9okSt "d" =
        .ok (runBatch (w9okRt.rows.map cleanRevenueRow)
          (w9okSt.rows.map cleanCostRow) "d"
          (extractArtists (w9okRt.rows.map cleanRevenueRow))) ∧
      runBatch (w9okRt.rows.map cleanRevenueRow) (w9okSt.rows.map cleanCostRow) "d"
          (extractArtists (w9okRt.rows.map cleanRevenueRow)) =
        runBatch (w9okRt.rows.map cleanRevenueRow) (w9okSt.rows.map cleanCostRow) "d"
          (extractArtists (w9okRt.rows.map cleanRevenueRow)) := by
  have hok : generate_reports w9okRt w9okSt "d" =
      .ok (runBatch (w9okRt.rows.map cleanRevenueRow)
        (w9okSt.rows.map cleanCostRow) "d"
        (extractArtists (w9okRt.rows.map cleanRevenueRow))) := rfl
  exact ⟨hok, (validation_abort_iff w9okRt w9okSt "d").2 _ hok⟩

/-! ## Reconciliation validator of the older variant

Embeds `DataValidator` of src/app_old1.py: the uploaded statistics
frame carries a precomputed grand-total row at index 0 (`iloc[0]`) and
the detail rows from index 1 on (`iloc[1:]`); the totals check of
`main` (lines 726-728) recomputes each metric from the detail rows and
compares `abs(declared - recomputed) < 1`.  The same strict predicate
is used per creator by `compare_creator_stats` (lines 71-85).  Field
names map to the columns: id = 아이디, views = 조회수, revenue =
대략적인 파트너 수익 (KRW). -/

structure StatRow where
  id : String
  views : ℚ
  revenue : ℚ
deriving DecidableEq

/-- Embeds `self.summary_row = original_df.iloc[0]`; `none` models the
IndexError on an empty frame. -/
def summary_row (df : List StatRow) : Option StatRow := df.head?

/-- Embeds `self.data_rows = original_df.iloc[1:]`. -/
def data_rows (df : List StatRow) : List StatRow := df.tail

/-- Embeds `total_views_data = self.data_rows[조회수].sum()`. -/
def total_views_data (df : List StatRow) : ℚ :=
  ((data_rows df).map (fun r => r.views)).sum

/-- Embeds `total_revenue_data` over 대략적인 파트너 수익 (KRW). -/
def total_revenue_data (df : List StatRow) : ℚ :=
  ((data_rows df).map (fun r => r.revenue)).sum

/-- Embeds `views_match = abs(total_views_summary - total_views_data) < 1`
(src/app_old1.py line 726). -/
def views_match (df : List StatRow) : Option Bool :=
  (summary_row df).map (fun s => decide (|s.views - total_views_data df| < 1))

/-- Embeds `revenue_match` (src/app_old1.py line 727). -/
def revenue_match (df : List StatRow) : Option Bool :=
  (summary_row df).map (fun s => decide (|s.revenue - total_revenue_data df| < 1))

/-- Ledger whose declared views total (3) differs from the recomputed
detail sum (1 + 1 = 2) by exactly one unit. -/
def w7df : List StatRow := [⟨"total", 3, 0⟩, ⟨"a", 1, 0⟩, ⟨"b", 1, 0⟩]

/-- C7 counterexample: a declared total differing from the recomputed
detail sum by exactly 1 unit yields matches = false, although the claim
says a difference of at most 1 unit yields true — the predicate of the
code is strictly `< 1`. -/
theorem reconciliation_off_by_one_is_false :
    views_match w7df = some false := by
  have h : views_match w7df =
      some (decide (|(3 : ℚ) - total_views_data w7df| < 1)) := rfl
  rw [h]
  have htot : total_views_data w7df = 2 := by
    unfold total_views_data data_rows w7df
    norm_num
  rw [htot]
  norm_num

/-- C7 amended.  The reconciliation check never raises — on any frame
with a summary row it returns a Boolean verdict per metric, reported as
data — and matches is true exactly when the absolute difference between
the declared total and the recomputed detail sum is strictly below 1;
a difference of 1 unit or more (including exactly 1) yields false. -/
theorem reconciliation_strict_epsilon (df : List StatRow) (s : StatRow)
    (h : summary_row df = some s) :
    (views_match df = some true ↔ |s.views - total_views_data df| < 1) ∧
      (views_match df = some false ↔ 1 ≤ |s.views - total_views_data df|) ∧
      (revenue_match df = some true ↔ |s.revenue - total_revenue_data df| < 1) ∧
      (revenue_match df = some false ↔ 1 ≤ |s.revenue - total_revenue_data df|) := by
  unfold views_match revenue_match
  rw [h]
  simp [not_lt]

/-- Witness for C7: the summary-row hypothesis of the amended theorem is
discharged on the concrete off-by-exactly-one ledger. -/
theorem reconciliation_strict_epsilon_witness :
    summary_row w7df = some ⟨"total", 3, 0⟩ ∧
      (views_match w7df = some false ↔
        1 ≤ |(3 : ℚ) - total_views_data w7df|) := by
  have h : summary_row w7df = some ⟨"total", 3, 0⟩ := rfl
  exact ⟨h, (reconciliation_strict_epsilon w7df ⟨"total", 3, 0⟩ h).2.1⟩

end ReportMaker
